import Mathlib

/-!
# Verification of the Music Artwork Finder (src/app.py)

A shallow embedding of the pure logic of the application: the entry
parsers (`parse_text_entries`, `parse_csv_entries`), the two catalog
clients (`search_spotify`, `search_itunes`) with their result
normalization, the aggregation step of the search loop
(`combined_options` / `best_result`), and the session-state transitions
that govern `results` and `selected_images`.

Network effects are modelled by passing each HTTP call's outcome in
explicitly (`NetResult`); Python string operations (`strip`, `split`,
`replace`, `lower`, `in`) are modelled over `List Char`.
-/

namespace App

/-! ## String helpers (models of Python str operations) -/

/-- Model of Python `str.strip` on the character level: drop leading and
trailing whitespace. -/
def stripChars (l : List Char) : List Char :=
  ((l.dropWhile Char.isWhitespace).reverse.dropWhile Char.isWhitespace).reverse

/-- Model of Python `str.strip` on `String`. -/
def strip (s : String) : String :=
  String.mk (stripChars s.toList)

/-- The separator `" - "` used by the text parser, as characters. -/
def sepChars : List Char := [' ', '-', ' ']

/-- Model of Python `line.split(" - ", maxsplit=1)`: scan left to right
for the first occurrence of the separator and split there; `none` when
the separator does not occur (Python: `" - " not in line`). -/
def splitFirst : List Char → Option (List Char × List Char)
  | [] => none
  | c :: cs =>
    if sepChars.isPrefixOf (c :: cs) then
      some ([], (c :: cs).drop 3)
    else
      match splitFirst cs with
      | none => none
      | some (a, t) => some (c :: a, t)

/-- Model of Python `str.splitlines` restricted to newline characters
(the only line separator relevant here). -/
def splitLinesAux : List Char → List Char → List (List Char)
  | acc, [] => [acc.reverse]
  | acc, c :: cs =>
    if c = '\n' then acc.reverse :: splitLinesAux [] cs
    else splitLinesAux (c :: acc) cs

/-- Split a character list into its newline-separated lines. -/
def splitLines (l : List Char) : List (List Char) :=
  splitLinesAux [] l

/-! ## Data model: search requests -/

/-- One parsed search request (`entries` element in `app.py`): the dict
`{"artist": ..., "track": ..., "album": ..., "search_type": ...}`. -/
structure Entry where
  artist : String
  track : String
  album : String
  search_type : String
deriving DecidableEq

/-! ## Entry Parser: text input (`parse_text_entries`, app.py 281-310) -/

/-- The body of the `parse_text_entries` loop for a single line: strip
the line, skip it when empty, otherwise build an artist-photo request
when `" - "` does not occur, and split on the first `" - "` otherwise
(artist before, stripped title after, stored as both track and album). -/
def parse_text_line (line : String) : Option Entry :=
  let l := strip line
  if l = "" then none
  else
    match splitFirst l.toList with
    | none => some ⟨l, "", "", "artist"⟩
    | some (a, t) =>
      let title := strip (String.mk t)
      some ⟨strip (String.mk a), title, title, "track_or_album"⟩

/-- `parse_text_entries` (app.py 281-310): strip the raw text, split it
into lines, parse each line, dropping empty lines. -/
def parse_text_entries (raw : String) : List Entry :=
  (splitLines (stripChars raw.toList)).filterMap
    (fun lc => parse_text_line (String.mk lc))

/-! ### Lemmas about `splitFirst` -/

theorem splitFirst_eq_none_iff (l : List Char) :
    splitFirst l = none ↔ ¬ sepChars <:+: l := by
  induction l with
  | nil =>
    simp [splitFirst, List.infix_nil, sepChars]
  | cons c cs ih =>
    by_cases h : sepChars.isPrefixOf (c :: cs)
    · have hinf : sepChars <:+: (c :: cs) :=
        ( List.isPrefixOf_iff_prefix.mp h).isInfix
      simp only [splitFirst, if_pos h]
      simp [hinf]
    · have h' : ¬ sepChars <+: (c :: cs) := fun hp =>
        h ( List.isPrefixOf_iff_prefix.mpr hp)
      have hiff : sepChars <:+: (c :: cs) ↔ sepChars <:+: cs := by
        rw [ List.infix_cons_iff]
        exact or_iff_right h'
      rcases hs : splitFirst cs with _ | ⟨a, t⟩
      · have hno := ih.mp hs
        simp only [splitFirst, if_neg h, hs]
        simp [hiff, hno]
      · have hcs : sepChars <:+: cs := by
          by_contra hc
          have hn := ih.mpr hc
          rw [hs] at hn
          exact absurd hn (by simp)
        simp only [splitFirst, if_neg h, hs]
        simp [hiff, hcs]

theorem splitFirst_eq_some (l a t : List Char)
    (h : splitFirst l = some (a, t)) :
    l = a ++ sepChars ++ t ∧ ¬ sepChars <:+: (a ++ [' ', '-']) := by
  induction l generalizing a t with
  | nil => simp [splitFirst] at h
  | cons c cs ih =>
    by_cases hp : sepChars.isPrefixOf (c :: cs)
    · simp only [splitFirst, if_pos hp] at h
      obtain ⟨ha, ht⟩ := Prod.mk.injEq .. ▸ Option.some.injEq .. ▸ h
      rw [ List.isPrefixOf_iff_prefix] at hp
      obtain ⟨rest, hrest⟩ := hp
      subst ha
      constructor
      · rw [← ht, ← hrest]
        have h3 : (3 : Nat) = sepChars.length := rfl
        rw [h3, List.drop_left]
        simp
      · intro hinf
        have := hinf.length_le
        simp [sepChars] at this
    · simp only [splitFirst, if_neg hp] at h
      rcases hs : splitFirst cs with _ | ⟨a', t'⟩
      · rw [hs] at h; exact absurd h (by simp)
      · rw [hs] at h
        obtain ⟨ha, ht⟩ := Prod.mk.injEq .. ▸ Option.some.injEq .. ▸ h
        obtain ⟨hcs, hbound⟩ := ih a' t' hs
        subst ht
        constructor
        · rw [← ha, hcs]; simp
        · rw [← ha]
          intro hinf
          rw [show (c :: a') ++ [' ', '-'] = c :: (a' ++ [' ', '-']) by simp] at hinf
          rcases List.infix_cons_iff.mp hinf with hpre | hrest

          · apply hp
            rw [ List.isPrefixOf_iff_prefix]
            refine hpre.trans ?_
            rw [hcs]
            rw [show c :: (a' ++ sepChars ++ t') = (c :: (a' ++ [' ', '-'])) ++ (' ' :: t') by simp [sepChars]]
            exact List.prefix_append _ _
          · exact hbound hrest

/-- C3: a non-empty trimmed line without `" - "` parses to an
artist-photo request whose artist is the whole trimmed line; a trimmed
line containing `" - "` splits at the first occurrence of the separator
(no earlier occurrence fits in the prefix, even overlapping the
boundary), with the trimmed remainder stored as both track and album and
kind `track_or_album`; in particular `"Pink Floyd - The Wall -
Remastered"` yields artist `"Pink Floyd"` and track = album =
`"The Wall - Remastered"`. -/
theorem parse_text_splits_on_first_separator (line : String) :
    (strip line ≠ "" → ¬ sepChars <:+: (strip line).toList →
      parse_text_line line = some ⟨strip line, "", "", "artist"⟩) ∧
    (sepChars <:+: (strip line).toList →
      ∃ pre post : List Char,
        (strip line).toList = pre ++ sepChars ++ post ∧
        ¬ sepChars <:+: (pre ++ [' ', '-']) ∧
        parse_text_line line =
          some ⟨strip (String.mk pre), strip (String.mk post),
                strip (String.mk post), "track_or_album"⟩) ∧
    parse_text_entries ("Pink Floyd - The Wall - Remastered") =
      [⟨"Pink Floyd", "The Wall - Remastered", "The Wall - Remastered",
        "track_or_album"⟩] := by
  refine ⟨?_, ?_, by decide⟩
  · intro hne hni
    have hn : splitFirst (strip line).data = none :=
      (splitFirst_eq_none_iff _).mpr hni
    simp [parse_text_line, hne, hn]
  · intro hinf
    rcases hs : splitFirst (strip line).toList with _ | ⟨a, t⟩
    · exact absurd ((splitFirst_eq_none_iff _).mp hs) (not_not_intro hinf)
    obtain ⟨hdecomp, hbound⟩ := splitFirst_eq_some _ _ _ hs
    have hne : strip line ≠ "" := by
      intro h0
      rw [h0] at hinf
      simp [sepChars] at hinf
    have hs' : splitFirst (strip line).data = some (a, t) := hs
    exact ⟨a, t, hdecomp, hbound, by simp [parse_text_line, hne, hs']⟩

/-- Witness for C3 at concrete inputs. -/
theorem parse_text_splits_on_first_separator_witness :
    parse_text_line ("Queen") = some ⟨strip ("Queen"), "", "", "artist"⟩ :=
  (parse_text_splits_on_first_separator ("Queen")).1 (by decide) (by decide)

/-! ## Entry Parser: CSV input (`parse_csv_entries`, app.py 313-344) -/

/-- One table cell as seen after `pd.read_csv`: either an actual string
value or a missing value (pandas `NaN`). -/
inductive Cell where
  | val : String → Cell
  | nan : Cell
deriving DecidableEq

/-- Python `str(cell)`: a missing value stringifies to the literal
`"nan"` (app.py comment, line 335). -/
def Cell.toStr : Cell → String
  | .val s => s
  | .nan => "nan"

/-- One row of the parsed table, keyed by column name. -/
structure CsvRow where
  cells : List (String × Cell)
deriving DecidableEq

/-- `str(row.get(col, ""))`: the stringified cell, or `""` when the
column does not exist in the frame at all. -/
def CsvRow.get (r : CsvRow) (col : String) : String :=
  match r.cells.lookup col with
  | some c => c.toStr
  | none => ""

/-- An uploaded table: its header columns and its rows. -/
structure CsvTable where
  columns : List String
  rows : List CsvRow
deriving DecidableEq

/-- The body of the `parse_csv_entries` row loop (app.py 330-342):
stringify and strip the three cells, normalize the literal `"nan"` to
`""` for track and album only, and derive the search kind from the
(normalized) track. -/
def entryOfRow (row : CsvRow) : Entry :=
  let artist := strip (row.get ("Artist"))
  let track0 := strip (row.get ("Track"))
  let album0 := strip (row.get ("Album"))
  let track := if track0 = "nan" then "" else track0
  let album := if album0 = "nan" then "" else album0
  let search_type := if track = "" then "artist" else "track_or_album"
  ⟨artist, track, album, search_type⟩

/-- `parse_csv_entries` (app.py 313-344): reject the table with a
user-visible error and zero entries when no `Artist` column exists,
otherwise map every row through the loop body. The second component
collects the user-visible error conditions. -/
def parse_csv_entries (df : CsvTable) : List Entry × List String :=
  if "Artist" ∈ df.columns then (df.rows.map entryOfRow, [])
  else ([], ["MissingColumn"])

/-- C7: a table without a (case-sensitive) `Artist` column parses to
zero entries with a `MissingColumn` error, whatever its other columns
and rows are. -/
theorem parse_csv_missing_artist_column (df : CsvTable)
    (h : "Artist" ∉ df.columns) :
    parse_csv_entries df = ([], ["MissingColumn"]) := by
  simp [parse_csv_entries, h]

/-- Witness for C7: a concrete table with only `Track` and `Album`
columns. -/
theorem parse_csv_missing_artist_column_witness :
    parse_csv_entries
      ⟨["Track", "Album"], [⟨[("Track", Cell.val ("Song"))]⟩]⟩ =
      ([], ["MissingColumn"]) :=
  parse_csv_missing_artist_column
    ⟨["Track", "Album"], [⟨[("Track", Cell.val ("Song"))]⟩]⟩ (by decide)

/-- C10: the `"nan"` → `""` normalization is applied to the Track and
Album cells only; a row whose Artist cell is missing (stringifies to
`"nan"`) produces a request whose artist is the literal string `"nan"`,
while missing Track/Album cells produce empty fields; and whenever the
`Artist` column is present the parsed entries are exactly the rows
mapped through the loop body. -/
theorem csv_nan_normalization_skips_artist (df : CsvTable) (row : CsvRow) :
    ("Artist" ∈ df.columns →
      (parse_csv_entries df).1 = df.rows.map entryOfRow) ∧
    (row.cells.lookup ("Artist") = some Cell.nan →
      (entryOfRow row).artist = "nan") ∧
    (row.cells.lookup ("Track") = some Cell.nan →
      (entryOfRow row).track = "") ∧
    (row.cells.lookup ("Album") = some Cell.nan →
      (entryOfRow row).album = "") := by
  refine ⟨fun h => by simp [parse_csv_entries, h], fun h => ?_, fun h => ?_,
    fun h => ?_⟩
  · simp only [entryOfRow, CsvRow.get, h, Cell.toStr]
    decide
  · simp only [entryOfRow, CsvRow.get, h, Cell.toStr]
    decide
  · simp only [entryOfRow, CsvRow.get, h, Cell.toStr]
    decide

/-- Witness for C10: a concrete row with all three cells missing. -/
theorem csv_nan_normalization_skips_artist_witness :
    (entryOfRow ⟨[("Artist", Cell.nan), ("Track", Cell.nan),
        ("Album", Cell.nan)]⟩).artist = "nan" ∧
    (entryOfRow ⟨[("Artist", Cell.nan), ("Track", Cell.nan),
        ("Album", Cell.nan)]⟩).track = "" ∧
    (parse_csv_entries ⟨["Artist"], []⟩).1 = [] :=
  have h := csv_nan_normalization_skips_artist ⟨["Artist"], []⟩
    ⟨[("Artist", Cell.nan), ("Track", Cell.nan), ("Album", Cell.nan)]⟩
  ⟨h.2.1 (by decide), h.2.2.1 (by decide), h.1 (by decide)⟩

/-! ### Facts about `stripChars` needed for the artist-field claims -/

theorem stripChars_eq_nil_iff (l : List Char) :
    stripChars l = [] ↔ ∀ x ∈ l, x.isWhitespace := by
  simp only [stripChars, List.reverse_eq_nil_iff, List.dropWhile_eq_nil_iff,
    List.mem_reverse]
  constructor
  · intro h x hx
    rcases List.mem_append.mp
        ((List.takeWhile_append_dropWhile Char.isWhitespace l) ▸ hx) with
      ht | hd
    · exact List.mem_takeWhile_imp ht
    · exact h x hd
  · intro h x hx
    exact h x ((List.dropWhile_suffix Char.isWhitespace).mem hx)

theorem dropWhile_eq_cons_not {α : Type} (p : α → Bool) (l : List α)
    (c : α) (cs : List α) (h : l.dropWhile p = c :: cs) : p c = false := by
  induction l with
  | nil => simp [List.dropWhile] at h
  | cons x xs ih =>
    rw [List.dropWhile_cons] at h
    by_cases hp : p x
    · rw [if_pos hp] at h
      exact ih h
    · rw [if_neg hp] at h
      obtain ⟨rfl, -⟩ := List.cons.injEq .. ▸ h
      simpa using hp

theorem stripChars_head_not_ws (l : List Char) (c : Char) (cs : List Char)
    (h : stripChars l = c :: cs) : c.isWhitespace = false := by
  have hsuf : ((l.dropWhile Char.isWhitespace).reverse.dropWhile
      Char.isWhitespace) <:+ (l.dropWhile Char.isWhitespace).reverse :=
    List.dropWhile_suffix Char.isWhitespace
  have hpre := hsuf.reverse
  rw [List.reverse_reverse] at hpre
  rw [stripChars] at h
  rw [h] at hpre
  obtain ⟨r, hr⟩ := hpre
  exact dropWhile_eq_cons_not Char.isWhitespace l c (cs ++ r)
    (by rw [← hr]; simp)

/-- For every line accepted by the text parser, the produced artist is
non-empty: the trimmed line itself in the artist-photo case, and the
trimmed prefix before the first `" - "` (which starts with the line's
first, non-whitespace character) otherwise. -/
theorem parse_text_line_artist_ne (line : String) (e : Entry)
    (h : parse_text_line line = some e) : e.artist ≠ "" := by
  by_cases hl : strip line = ""
  · simp [parse_text_line, hl] at h
  · rcases hs : splitFirst (strip line).data with _ | ⟨a, t⟩
    · simp [parse_text_line, hl, hs] at h
      rw [← h]
      exact hl
    · simp [parse_text_line, hl, hs] at h
      obtain ⟨hdecomp, _⟩ := splitFirst_eq_some _ _ _ hs
      have hstrip : (strip line).data = stripChars line.data := rfl
      rw [hstrip] at hdecomp
      rcases ha : a with _ | ⟨c, a''⟩
      · rw [ha] at hdecomp
        simp only [List.nil_append, sepChars] at hdecomp
        have := stripChars_head_not_ws line.data ' ' ('-' :: ' ' :: t)
          (by simpa using hdecomp)
        simp at this
      · rw [ha] at hdecomp
        have hc : c.isWhitespace = false :=
          stripChars_head_not_ws line.data c (a'' ++ sepChars ++ t)
            (by simpa using hdecomp)
        rw [← h]
        simp only [ne_eq, String.ext_iff]
        intro habs
        have hnil : stripChars a = [] := habs
        rw [stripChars_eq_nil_iff] at hnil
        have hmem : c ∈ a := by rw [ha]; exact List.mem_cons_self ..
        have hws := hnil c hmem
        rw [hc] at hws
        exact Bool.false_ne_true hws

/-- C9 (amended): every request produced by the text parser has a
non-empty artist, but the table parser can produce a request with an
empty artist (a whitespace-only `Artist` cell is stripped to `""` and
not rejected). -/
theorem text_artist_nonempty_csv_artist_possibly_empty :
    (∀ raw : String, ∀ e ∈ parse_text_entries raw, e.artist ≠ "") ∧
    (∃ df : CsvTable, "Artist" ∈ df.columns ∧
      ∃ e ∈ (parse_csv_entries df).1, e.artist = "") := by
  constructor
  · intro raw e he
    rw [parse_text_entries, List.mem_filterMap] at he
    obtain ⟨lc, _, hp⟩ := he
    exact parse_text_line_artist_ne _ _ hp
  · exact ⟨⟨["Artist"], [⟨[("Artist", Cell.val (" "))]⟩]⟩, by decide,
      ⟨"", "", "", "artist"⟩, by decide, rfl⟩

/-- Witness for C9 (amended) at a concrete text input. -/
theorem text_artist_nonempty_witness :
    Entry.artist ⟨"Queen", "", "", "artist"⟩ ≠ "" :=
  text_artist_nonempty_csv_artist_possibly_empty.1 ("Queen")
    ⟨"Queen", "", "", "artist"⟩ (by decide)

/-- Counterexample to C9 as stated: a table whose single row has a
whitespace-only `Artist` cell parses to a request whose artist is the
empty string. -/
theorem csv_blank_artist_counterexample :
    (parse_csv_entries ⟨["Artist"], [⟨[("Artist", Cell.val (" "))]⟩]⟩).1 =
      [⟨"", "", "", "artist"⟩] := by decide

/-! ## API layer: common result shape and network outcomes -/

/-- One normalized artwork candidate (the result dicts built by
`_spotify_artist_search`, `_spotify_album_search`, `_spotify_track_search`
and `search_itunes`). Keys that only some producers set are `Option`s. -/
structure ArtworkResult where
  source : String
  image_url : String
  preview_url : Option String := none
  width : Option Nat := none
  height : Option Nat := none
  artist_name : Option String := none
  album_name : String
  track_name : Option String := none
  type : String
  found : Bool
deriving DecidableEq

/-- Outcome of one HTTP call: a parsed successful body, a non-2xx
status (`requests.HTTPError` from `raise_for_status`), or any other
raised exception (timeouts, connection errors, malformed bodies). -/
inductive NetResult (α : Type) where
  | ok : α → NetResult α
  | httpError : Nat → NetResult α
  | failure : String → NetResult α
deriving DecidableEq

/-- Whether the call raised (anything but a parsed 2xx body). -/
def NetResult.isErr {α : Type} : NetResult α → Bool
  | .ok _ => false
  | _ => true

/-- Apply the in-`try` result processing to a successful body; errors
pass through (they are raised before the processing runs). -/
def NetResult.process {α β : Type} (f : α → β) : NetResult α → NetResult β
  | .ok v => .ok (f v)
  | .httpError c => .httpError c
  | .failure m => .failure m

/-! ## Catalog Client A: Spotify (app.py 53-195) -/

/-- Body of the Spotify token endpoint response. -/
structure TokenResponse where
  access_token : String
deriving DecidableEq

/-- `fetch_spotify_token` (app.py 53-76): token on success; on any
failure, `None` plus a user-visible warning. -/
def fetch_spotify_token (resp : NetResult TokenResponse) :
    Option String × List String :=
  match resp with
  | .ok r => (some r.access_token, [])
  | .httpError _ => (none, ["Spotify auth failed (HTTP). Check your credentials."])
  | .failure _ => (none, ["Spotify auth failed."])

/-- One image record in a Spotify response. -/
structure SpotifyImage where
  url : String
  width : Nat
  height : Nat
deriving DecidableEq

/-- One item of `response.json()["artists"]["items"]`. -/
structure SpotifyArtistItem where
  name : String
  images : List SpotifyImage
deriving DecidableEq

/-- One item of `response.json()["albums"]["items"]`. -/
structure SpotifyAlbumItem where
  name : String
  images : List SpotifyImage
  album_type : Option String
deriving DecidableEq

/-- One item of `response.json()["tracks"]["items"]` (with its nested
`album` object flattened in). -/
structure SpotifyTrackItem where
  name : String
  album_name : String
  album_images : List SpotifyImage
  album_type : Option String
deriving DecidableEq

/-- The list comprehension of `_spotify_artist_search` (app.py 119-143):
keep items with images whose name case-insensitively equals the query
artist; the first image is used. -/
def spotify_artist_process (artist : String)
    (items : List SpotifyArtistItem) : List ArtworkResult :=
  items.filterMap (fun item =>
    match item.images with
    | [] => none
    | img :: _ =>
      if item.name.toLower = artist.toLower then
        some { source := "Spotify", image_url := img.url,
               width := some img.width, height := some img.height,
               artist_name := some item.name, album_name := item.name,
               type := "Artist Photo", found := true }
      else none)

/-- The list comprehension of `_spotify_album_search` (app.py 146-169):
keep items with images; `Single` when Spotify marks the album type as
single. -/
def spotify_album_process (items : List SpotifyAlbumItem) :
    List ArtworkResult :=
  items.filterMap (fun item =>
    match item.images with
    | [] => none
    | img :: _ =>
      some { source := "Spotify", image_url := img.url,
             width := some img.width, height := some img.height,
             album_name := item.name,
             type := if item.album_type = some ("single") then "Single"
                     else "Album",
             found := true })

/-- The list comprehension of `_spotify_track_search` (app.py 172-195):
keep tracks whose album has images; the first album image is used. -/
def spotify_track_process (items : List SpotifyTrackItem) :
    List ArtworkResult :=
  items.filterMap (fun item =>
    match item.album_images with
    | [] => none
    | img :: _ =>
      some { source := "Spotify", image_url := img.url,
             width := some img.width, height := some img.height,
             album_name := item.album_name, track_name := some item.name,
             type := if item.album_type = some ("single") then "Single"
                     else "Album",
             found := true })

/-- The outcomes of the three possible Spotify search calls, supplied by
the environment. -/
structure SpotifyEnv where
  auth : NetResult TokenResponse
  artistResp : NetResult (List SpotifyArtistItem)
  albumResp : NetResult (List SpotifyAlbumItem)
  trackResp : NetResult (List SpotifyTrackItem)

/-- `search_spotify` (app.py 79-116): empty list when no token could be
fetched; otherwise dispatch on `search_type` (`"artist"`, `"album"`,
anything else searches by track) and convert any raised failure into an
empty list plus a user-visible warning. The second component is the
accumulated warnings. -/
def search_spotify (artist track search_type album : String)
    (env : SpotifyEnv) : List ArtworkResult × List String :=
  let tok := fetch_spotify_token env.auth
  match tok.1 with
  | none => ([], tok.2)
  | some _ =>
    let inner : NetResult (List ArtworkResult) :=
      if search_type = "artist" then
        env.artistResp.process (spotify_artist_process artist)
      else if search_type = "album" then
        env.albumResp.process spotify_album_process
      else
        env.trackResp.process spotify_track_process
    match inner with
    | .ok rs => (rs, tok.2)
    | .httpError _ => ([], tok.2 ++ ["Spotify search failed (HTTP)."])
    | .failure _ => ([], tok.2 ++ ["Spotify search error."])

/-! ## Catalog Client B: iTunes (app.py 198-259) -/

/-- Scanner for Python `str.replace`: at each position, either the
(non-empty) pattern matches and is replaced, skipping past it, or the
character is copied. The fuel argument only forces structural
termination; `s.length` units always suffice because each step consumes
at least one character of `s`. -/
def replaceAux (pat repl : List Char) : Nat → List Char → List Char
  | _, [] => []
  | 0, s => s
  | fuel + 1, c :: cs =>
    if pat.isPrefixOf (c :: cs) then
      repl ++ replaceAux pat repl fuel ((c :: cs).drop pat.length)
    else
      c :: replaceAux pat repl fuel cs

/-- Python `str.replace` (all occurrences, scanning left to right,
skipping past each replacement; the empty pattern never occurs here, and
Python's behavior for it is not modelled). -/
def replaceList (pat repl s : List Char) : List Char :=
  match pat with
  | [] => s
  | _ :: _ => replaceAux pat repl s.length s

/-- Python `s.replace(pat, repl)` on `String`. -/
def pyReplace (s pat repl : String) : String :=
  String.mk (replaceList pat.toList repl.toList s.toList)

/-- `ITUNES_ARTWORK_PREVIEW_SIZE` (app.py 28). -/
def ITUNES_ARTWORK_PREVIEW_SIZE : String := "100x100bb"

/-- `ITUNES_ARTWORK_SIZE` (app.py 27). -/
def ITUNES_ARTWORK_SIZE : String := "3000x3000bb"

/-- One record of the iTunes `results` array; every key the code reads
may be absent. -/
structure ITunesItem where
  artworkUrl100 : Option String
  collectionName : Option String
  trackName : Option String
  artistName : Option String
deriving DecidableEq

/-- The query-string parameters of one iTunes GET request. -/
structure ITunesParams where
  term : String
  entity : String
  limit : Nat
  sort : Option String := none
deriving DecidableEq

/-- The `params` built by `search_itunes` (app.py 213-222) for the given
search kind. -/
def itunes_params (artist track album search_type : String) :
    ITunesParams :=
  if search_type = "artist" then
    ⟨artist, "album", 5, some ("popular")⟩
  else if search_type = "album" then
    ⟨artist ++ " " ++ (if album = "" then track else album), "album", 5,
      none⟩
  else
    ⟨artist ++ " " ++ track, "musicTrack", 5, none⟩

/-- The HTTP requests one `search_itunes` call issues: exactly one GET
with the parameters above (app.py 225). -/
def itunes_requests (artist track album search_type : String) :
    List ITunesParams :=
  [itunes_params artist track album search_type]

/-- The body of the `search_itunes` result loop (app.py 236-257): derive
the full-resolution URL by replacing the preview size token, lowercase
collection and track names, and infer `Single` when the collection name
contains `"single"` or equals the track name. -/
def itunesCandidate (artist : String) (item : ITunesItem) :
    ArtworkResult :=
  let preview_url := item.artworkUrl100.getD ""
  let full_res_url :=
    pyReplace preview_url ITUNES_ARTWORK_PREVIEW_SIZE ITUNES_ARTWORK_SIZE
  let collection_name := (item.collectionName.getD "").toLower
  let track_name_lower := (item.trackName.getD "").toLower
  let is_single : Bool :=
    decide ((("single" : String).toList <:+: collection_name.toList) ∨
      track_name_lower = collection_name)
  { source := "iTunes", image_url := full_res_url,
    preview_url := some preview_url,
    album_name := item.collectionName.getD ("Unknown"),
    artist_name := some (item.artistName.getD artist),
    track_name := some (item.trackName.getD ""),
    type := if is_single then "Single" else "Album", found := true }

/-- The whole result loop: every raw record produces one candidate. -/
def itunes_process (artist : String) (raw : List ITunesItem) :
    List ArtworkResult :=
  raw.map (itunesCandidate artist)

/-- `search_itunes` (app.py 198-259): build the parameters, issue the
single GET, convert any raised failure into an empty list plus a
user-visible warning, otherwise run the result loop. -/
def search_itunes (artist track album search_type : String)
    (net : ITunesParams → NetResult (List ITunesItem)) :
    List ArtworkResult × List String :=
  match net (itunes_params artist track album search_type) with
  | .ok raw => (itunes_process artist raw, [])
  | .httpError _ => ([], ["iTunes search failed (HTTP)."])
  | .failure _ => ([], ["iTunes search error."])

/-! ## Candidate Aggregator (app.py 590-592) -/

/-- `combined_options = spotify_results or itunes_results`: Python `or`
on lists yields the left operand unless it is empty. -/
def combined_options (spotify_results itunes_results : List ArtworkResult) :
    List ArtworkResult :=
  if spotify_results.isEmpty then itunes_results else spotify_results

/-- `best_result = combined_options[0] if combined_options else None`. -/
def best_result (options : List ArtworkResult) : Option ArtworkResult :=
  match options with
  | [] => none
  | r :: _ => some r

/-! ## Search execution loop (app.py 561-613) -/

/-- One element of the `results` list built by the search loop. -/
structure ResultEntry where
  artist : String
  track : String
  album : String
  spotify_results : List ArtworkResult
  itunes_results : List ArtworkResult
  best : Option ArtworkResult
  options : List ArtworkResult
deriving DecidableEq

/-- The body of the search loop for one entry: run both clients (Spotify
only when credentials are configured), aggregate, and record the row.
The second component is the accumulated user-visible warnings. -/
def runEntry (entry : Entry) (spotify_enabled : Bool) (spEnv : SpotifyEnv)
    (net : ITunesParams → NetResult (List ITunesItem)) :
    ResultEntry × List String :=
  let sp :=
    if spotify_enabled then
      search_spotify entry.artist entry.track entry.search_type entry.album
        spEnv
    else ([], [])
  let it := search_itunes entry.artist entry.track entry.album
    entry.search_type net
  let opts := combined_options sp.1 it.1
  (⟨entry.artist, entry.track, entry.album, sp.1, it.1, best_result opts,
    opts⟩, sp.2 ++ it.2)

/-! ## Session state (app.py 561-624): `results` and `selected_images` -/

/-- Python dict assignment `d[i] = u` on an insertion-ordered mapping:
overwrite in place when the key exists, append otherwise. -/
def setSelection (m : List (Nat × String)) (i : Nat) (u : String) :
    List (Nat × String) :=
  if m.lookup i = none then m ++ [(i, u)]
  else m.map (fun p => if p.1 = i then (i, u) else p)

/-- `st.session_state` as far as the claims are concerned: the `results`
key (absent until the first search) and the `selected_images` key
(absent until the results gallery first renders). -/
structure AppState where
  results : Option (List ResultEntry)
  selected_images : Option (List (Nat × String))
deriving DecidableEq

/-- Whether `st.session_state.get("results")` is truthy (present and
non-empty). -/
def resultsTruthy (s : AppState) : Bool :=
  match s.results with
  | some (_ :: _) => true
  | _ => false

/-- The session-state transitions of the app:
`runSearch` is the end of the search-execution block
(`st.session_state["results"] = results`, app.py 611);
`renderResults` is the results-gallery guard that initializes
`selected_images` to the empty dict when the key is absent
(app.py 619-624); `select` is a Select-button press
(`st.session_state.selected_images[result_index] = option["image_url"]`,
app.py 398). -/
inductive Event where
  | runSearch : List ResultEntry → Event
  | renderResults : Event
  | select : Nat → String → Event

/-- One step of the session: exactly what each handler writes. -/
def step (s : AppState) : Event → AppState
  | .runSearch rs => { s with results := some rs }
  | .renderResults =>
    if resultsTruthy s then
      match s.selected_images with
      | none => { s with selected_images := some [] }
      | some _ => s
    else s
  | .select i u =>
    { s with selected_images := some (setSelection (s.selected_images.getD []) i u) }

/-! ## Claim theorems for the API layer, aggregator and session -/

/-- C1: the aggregate is Spotify's full list whenever it is non-empty,
iTunes' list when Spotify's is empty, and the best candidate is the
first element of the aggregate, `none` when both lists are empty; the
search loop records exactly these. -/
theorem aggregate_prefers_full_spotify_list
    (a b : List ArtworkResult) (entry : Entry) (en : Bool)
    (spEnv : SpotifyEnv) (net : ITunesParams → NetResult (List ITunesItem)) :
    (a ≠ [] → combined_options a b = a) ∧
    (a = [] → combined_options a b = b) ∧
    best_result (combined_options a b) = (combined_options a b).head? ∧
    (a = [] → b = [] → best_result (combined_options a b) = none) ∧
    (runEntry entry en spEnv net).1.options =
      combined_options (runEntry entry en spEnv net).1.spotify_results
        (runEntry entry en spEnv net).1.itunes_results ∧
    (runEntry entry en spEnv net).1.best =
      best_result (runEntry entry en spEnv net).1.options := by
  refine ⟨fun h => ?_, fun h => ?_, ?_, fun ha hb => ?_, ?_, ?_⟩
  · simp [combined_options, h]
  · simp [combined_options, h]
  · cases h : combined_options a b <;> simp [best_result]
  · simp [combined_options, ha, hb, best_result]
  · simp [runEntry]
  · simp [runEntry]

/-- Witness for C1 at concrete candidate lists. -/
theorem aggregate_prefers_full_spotify_list_witness :
    combined_options
        [⟨"Spotify", "u1", none, none, none, none, "A", none, "Album", true⟩]
        [⟨"iTunes", "u2", none, none, none, none, "B", none, "Album", true⟩] =
      [⟨"Spotify", "u1", none, none, none, none, "A", none, "Album", true⟩] ∧
    best_result (combined_options [] ([] : List ArtworkResult)) = none := by
  have h := aggregate_prefers_full_spotify_list
    [⟨"Spotify", "u1", none, none, none, none, "A", none, "Album", true⟩]
    [⟨"iTunes", "u2", none, none, none, none, "B", none, "Album", true⟩]
    ⟨"A", "", "", "artist"⟩ false
    ⟨NetResult.failure (""), NetResult.failure (""), NetResult.failure (""),
      NetResult.failure ("")⟩
    (fun _ => NetResult.failure (""))
  have h2 := aggregate_prefers_full_spotify_list
    ([] : List ArtworkResult) ([] : List ArtworkResult)
    ⟨"A", "", "", "artist"⟩ false
    ⟨NetResult.failure (""), NetResult.failure (""), NetResult.failure (""),
      NetResult.failure ("")⟩
    (fun _ => NetResult.failure (""))
  exact ⟨h.1 (by decide), h2.2.2.2.1 rfl rfl⟩

/-- C8: whenever a catalog call fails (auth failure, non-2xx status, or
any other raised exception), the client returns an empty candidate list
together with a user-visible warning. Both clients are total functions
into plain pairs, so no exception can propagate past the client
boundary to the aggregator. -/
theorem catalog_failures_become_empty_plus_warning
    (artist track search_type album : String) (env : SpotifyEnv)
    (net : ITunesParams → NetResult (List ITunesItem)) :
    (env.auth.isErr = true →
      (search_spotify artist track search_type album env).1 = [] ∧
      (search_spotify artist track search_type album env).2 ≠ []) ∧
    (search_type = "artist" → env.artistResp.isErr = true →
      (search_spotify artist track search_type album env).1 = [] ∧
      (search_spotify artist track search_type album env).2 ≠ []) ∧
    (search_type = "album" → env.albumResp.isErr = true →
      (search_spotify artist track search_type album env).1 = [] ∧
      (search_spotify artist track search_type album env).2 ≠ []) ∧
    (search_type ≠ "artist" → search_type ≠ "album" →
      env.trackResp.isErr = true →
      (search_spotify artist track search_type album env).1 = [] ∧
      (search_spotify artist track search_type album env).2 ≠ []) ∧
    ((net (itunes_params artist track album search_type)).isErr = true →
      (search_itunes artist track album search_type net).1 = [] ∧
      (search_itunes artist track album search_type net).2 ≠ []) := by
  refine ⟨fun ha => ?_, fun hst herr => ?_, fun hst herr => ?_,
    fun h1 h2 herr => ?_, fun herr => ?_⟩
  · cases henv : env.auth with
    | ok r => rw [henv] at ha; simp [NetResult.isErr] at ha
    | httpError c => simp [search_spotify, fetch_spotify_token, henv]
    | failure m => simp [search_spotify, fetch_spotify_token, henv]
  · cases henv : env.auth with
    | ok r =>
      cases hresp : env.artistResp with
      | ok l => rw [hresp] at herr; simp [NetResult.isErr] at herr
      | httpError c =>
        simp [search_spotify, fetch_spotify_token, henv, hst, hresp,
          NetResult.process]
      | failure m =>
        simp [search_spotify, fetch_spotify_token, henv, hst, hresp,
          NetResult.process]
    | httpError c => simp [search_spotify, fetch_spotify_token, henv]
    | failure m => simp [search_spotify, fetch_spotify_token, henv]
  · cases henv : env.auth with
    | ok r =>
      cases hresp : env.albumResp with
      | ok l => rw [hresp] at herr; simp [NetResult.isErr] at herr
      | httpError c =>
        simp [search_spotify, fetch_spotify_token, henv, hst, hresp,
          NetResult.process]
      | failure m =>
        simp [search_spotify, fetch_spotify_token, henv, hst, hresp,
          NetResult.process]
    | httpError c => simp [search_spotify, fetch_spotify_token, henv]
    | failure m => simp [search_spotify, fetch_spotify_token, henv]
  · cases henv : env.auth with
    | ok r =>
      cases hresp : env.trackResp with
      | ok l => rw [hresp] at herr; simp [NetResult.isErr] at herr
      | httpError c =>
        simp [search_spotify, fetch_spotify_token, henv, h1, h2, hresp,
          NetResult.process]
      | failure m =>
        simp [search_spotify, fetch_spotify_token, henv, h1, h2, hresp,
          NetResult.process]
    | httpError c => simp [search_spotify, fetch_spotify_token, henv]
    | failure m => simp [search_spotify, fetch_spotify_token, henv]
  · cases hn : net (itunes_params artist track album search_type) with
    | ok l => rw [hn] at herr; simp [NetResult.isErr] at herr
    | httpError c => simp [search_itunes, hn]
    | failure m => simp [search_itunes, hn]

/-- Witness for C8: a rejected token exchange and a timed-out iTunes
call, at concrete inputs. -/
theorem catalog_failures_witness :
    (search_spotify ("A") ("T") ("artist") ("")
      ⟨NetResult.httpError 401, NetResult.ok [], NetResult.ok [],
        NetResult.ok []⟩).1 = [] ∧
    (search_itunes ("A") ("T") ("") ("track_or_album")
      (fun _ => NetResult.failure ("timeout"))).2 ≠ [] := by
  have h := catalog_failures_become_empty_plus_warning
    ("A") ("T") ("artist") ("")
    ⟨NetResult.httpError 401, NetResult.ok [], NetResult.ok [],
      NetResult.ok []⟩
    (fun _ => NetResult.failure ("timeout"))
  exact ⟨(h.1 rfl).1, (h.2.2.2.2 rfl).2⟩

/-- Sample image shared by two distinct Spotify track records. -/
def dupImage : SpotifyImage := ⟨"https://img.example/a.jpg", 640, 640⟩

/-- First sample track record. -/
def dupTrack1 : SpotifyTrackItem :=
  ⟨"Song One", "Album X", [dupImage], some ("album")⟩

/-- Second sample track record with the same artwork URL. -/
def dupTrack2 : SpotifyTrackItem :=
  ⟨"Song Two", "Album X", [dupImage], some ("album")⟩

/-- Counterexample to C2: two raw Spotify track records sharing one
artwork URL both survive into the entry's aggregated candidate list, so
that `imageUrl` occurs twice — no deduplication by image URL happens
anywhere in the pipeline. -/
theorem duplicate_image_urls_survive_counterexample :
    ((combined_options (spotify_track_process [dupTrack1, dupTrack2])
        []).map (fun r => r.image_url)).count
      ("https://img.example/a.jpg") = 2 := by
  decide

/-- C2 (amended): no deduplication is performed. Each Spotify track
record with an image and each iTunes record yields exactly one candidate
in input order (the translation is a homomorphism over list
concatenation, and the iTunes list is mapped one-to-one), and the
aggregate is one source's list taken unchanged, so duplicate image URLs
survive. -/
theorem candidates_map_raw_records_without_dedup
    (items more : List SpotifyTrackItem) (artist : String)
    (raw raw2 : List ITunesItem) (a b : List ArtworkResult) :
    spotify_track_process (items ++ more) =
      spotify_track_process items ++ spotify_track_process more ∧
    (itunes_process artist raw).length = raw.length ∧
    itunes_process artist (raw ++ raw2) =
      itunes_process artist raw ++ itunes_process artist raw2 ∧
    (combined_options a b = a ∨ combined_options a b = b) := by
  refine ⟨by simp [spotify_track_process], by simp [itunes_process],
    by simp [itunes_process], ?_⟩
  by_cases h : a.isEmpty <;> simp [combined_options, h]

/-- Counterexample to C4: for a track-or-album request the iTunes client
issues exactly one HTTP query, with entity `musicTrack` — not two
separate track-type and album-type queries. -/
theorem itunes_issues_single_query_counterexample :
    itunes_requests ("Daft Punk") ("One More Time") ("")
      ("track_or_album") =
      [⟨"Daft Punk One More Time", "musicTrack", 5, none⟩] := by
  decide

/-- C4 (amended): for kind `track` or `track_or_album` the iTunes client
issues a single query with term artist+track, entity `musicTrack` and
limit 5, and the candidate list is the raw result list mapped one-to-one
(no deduplication). -/
theorem itunes_track_search_single_query
    (artist track album : String)
    (net : ITunesParams → NetResult (List ITunesItem))
    (raw : List ITunesItem) :
    itunes_requests artist track album ("track") =
      [⟨artist ++ " " ++ track, "musicTrack", 5, none⟩] ∧
    itunes_requests artist track album ("track_or_album") =
      [⟨artist ++ " " ++ track, "musicTrack", 5, none⟩] ∧
    (itunes_requests artist track album ("track_or_album")).length = 1 ∧
    (net (itunes_params artist track album ("track_or_album")) =
        NetResult.ok raw →
      search_itunes artist track album ("track_or_album") net =
        (itunes_process artist raw, [])) := by
  have h1 : ("track" : String) ≠ "artist" := by decide
  have h2 : ("track" : String) ≠ "album" := by decide
  have h3 : ("track_or_album" : String) ≠ "artist" := by decide
  have h4 : ("track_or_album" : String) ≠ "album" := by decide
  refine ⟨?_, ?_, ?_, fun h => ?_⟩
  · simp [itunes_requests, itunes_params, h1, h2]
  · simp [itunes_requests, itunes_params, h3, h4]
  · simp [itunes_requests]
  · simp [search_itunes, h]

/-- Witness for C4 (amended) at concrete inputs. -/
theorem itunes_track_search_single_query_witness :
    search_itunes ("Daft Punk") ("One More Time") ("") ("track_or_album")
      (fun _ => NetResult.ok []) = ([], []) := by
  have h := itunes_track_search_single_query ("Daft Punk")
    ("One More Time") ("") (fun _ => NetResult.ok []) []
  have := h.2.2.2 rfl
  simpa [itunes_process] using this

/-- An iTunes record with no artwork, collection, track or artist. -/
def bareItem : ITunesItem := ⟨none, none, none, none⟩

/-- Counterexample to C6's dropping clause: an iTunes record with no
collection and no artwork at all is not dropped — it still produces one
candidate (with an empty image URL and display name `Unknown`). -/
theorem itunes_keeps_artless_records_counterexample :
    ((search_itunes ("Queen") ("Bohemian Rhapsody") ("")
        ("track_or_album") (fun _ => NetResult.ok [bareItem])).1).length
      = 1 := by
  decide

/-- C6 (amended): a produced candidate is `Single` exactly when the
lowercased collection name contains `"single"` or the lowercased track
name equals the lowercased collection name, and `Album` otherwise; but
no record is ever dropped — every raw record yields a candidate. -/
theorem itunes_single_inference (artist : String) (item : ITunesItem)
    (raw : List ITunesItem) :
    ((itunesCandidate artist item).type = "Single" ↔
      ((("single" : String).toList <:+:
          ((item.collectionName.getD "").toLower).toList) ∨
        (item.trackName.getD "").toLower =
          (item.collectionName.getD "").toLower)) ∧
    ((itunesCandidate artist item).type = "Single" ∨
      (itunesCandidate artist item).type = "Album") ∧
    (itunes_process artist raw).length = raw.length := by
  have key : (itunesCandidate artist item).type =
      if (decide ((("single" : String).toList <:+:
          ((item.collectionName.getD "").toLower).toList) ∨
          (item.trackName.getD "").toLower =
            (item.collectionName.getD "").toLower)) = true
      then "Single" else "Album" := rfl
  refine ⟨?_, ?_, by simp [itunes_process]⟩
  · rw [key]
    by_cases h : ((("single" : String).toList <:+:
        ((item.collectionName.getD "").toLower).toList) ∨
        (item.trackName.getD "").toLower =
          (item.collectionName.getD "").toLower)
    · rw [if_pos (decide_eq_true h)]
      exact iff_of_true rfl h
    · rw [if_neg (by simpa using h)]
      exact iff_of_false (by decide) h
  · rw [key]
    by_cases h : ((("single" : String).toList <:+:
        ((item.collectionName.getD "").toLower).toList) ∨
        (item.trackName.getD "").toLower =
          (item.collectionName.getD "").toLower)
    · rw [if_pos (decide_eq_true h)]
      left; rfl
    · rw [if_neg (by simpa using h)]
      right; rfl

/-- First sample result row for the session traces. -/
def sampleRow : ResultEntry := ⟨"Queen", "", "", [], [], none, []⟩

/-- Second sample result row for the session traces. -/
def sampleRow2 : ResultEntry := ⟨"Muse", "", "", [], [], none, []⟩

/-- Counterexample to C5: run a search, render, select an image, then
run a second search. The second search replaces the result set but the
selection made against the first result set survives — the store is
never cleared when a new batch search completes. -/
theorem selection_survives_new_search_counterexample :
    (step (step (step (step ⟨none, none⟩ (Event.runSearch [sampleRow]))
        Event.renderResults) (Event.select 0 ("u1")))
      (Event.runSearch [sampleRow2])).selected_images =
        some [(0, "u1")] ∧
    (step (step (step (step ⟨none, none⟩ (Event.runSearch [sampleRow]))
        Event.renderResults) (Event.select 0 ("u1")))
      (Event.runSearch [sampleRow2])).results = some [sampleRow2] := by
  constructor <;> rfl

/-- C5 (amended): the selection store is mutated only by explicit
selection actions (plus the first-render initialization to the empty
mapping); completing a new search replaces `results` but leaves
`selected_images` untouched, so prior selections persist across
searches. -/
theorem selections_only_mutated_by_select (s : AppState)
    (rs : List ResultEntry) (i : Nat) (u : String) :
    (step s (Event.runSearch rs)).selected_images = s.selected_images ∧
    (step s (Event.runSearch rs)).results = some rs ∧
    (step s (Event.select i u)).selected_images =
      some (setSelection (s.selected_images.getD []) i u) ∧
    (step s (Event.select i u)).results = s.results ∧
    ((step s Event.renderResults).selected_images = s.selected_images ∨
      (step s Event.renderResults).selected_images = some []) ∧
    (step s Event.renderResults).results = s.results := by
  refine ⟨rfl, rfl, rfl, rfl, ?_, ?_⟩
  · by_cases h : resultsTruthy s
    · cases hsel : s.selected_images with
      | none => right; simp [step, h, hsel]
      | some m => left; simp [step, h, hsel]
    · left; simp [step, h]
  · by_cases h : resultsTruthy s
    · cases hsel : s.selected_images <;> simp [step, h, hsel]
    · simp [step, h]

end App
